import Mathlib

/-!
# Verification of the vafast-compress response-compression middleware

Shallow embedding of `src/main.ts` and `src/types.ts` of the
`@vafast/compress` repository: encoding negotiation, the compressibility
gate, the buffered compression cache, header rewriting, and the
configuration-resolution logic, together with theorems settling the
specification claims about them.

Bytes are modelled as `List Nat` (each entry a byte value), JavaScript
strings as Lean `String`/`List Char`, and the external collaborators
(zlib compressors, the MD5 digest from `node:crypto`, and the
`CompressionStream` wrapper) as function parameters, mirroring the spec's
treatment of them as opaque consumed interfaces.
-/

deriving instance DecidableEq for Except

namespace VafastCompress

abbrev Bytes := List Nat

/-! ## JavaScript string primitives

The middleware uses `String.prototype.split`, `trim`, `toLowerCase` and
template strings.  These are modelled structurally over `List Char` so
that every definition evaluates by kernel reduction.
-/

/-- ASCII lowercase conversion of a character, modelling
`String.prototype.toLowerCase` on the ASCII range used by header tokens. -/
def lowerChar (c : Char) : Char :=
  if 'A' ≤ c ∧ c ≤ 'Z' then Char.ofNat (c.toNat + 32) else c

/-- Lowercase a string (ASCII model of `toLowerCase`). -/
def jsLower (s : String) : String :=
  String.mk (s.data.map lowerChar)

/-- Whitespace as removed by `String.prototype.trim` (ASCII part). -/
def isJsSpace (c : Char) : Bool :=
  c == ' ' || c == '\t' || c == '\n' || c == '\r' || c == '\x0b' || c == '\x0c'

/-- Model of `String.prototype.trim`: strip whitespace from both ends. -/
def trimChars (s : List Char) : List Char :=
  ((s.dropWhile isJsSpace).reverse.dropWhile isJsSpace).reverse

/-- Model of `vary.split(',')` from main.ts line 171: split a character list
at every comma, keeping empty fragments, accumulator-style. -/
def splitComma : List Char → List Char → List (List Char)
  | [], acc => [acc.reverse]
  | ',' :: rest, acc => acc.reverse :: splitComma rest []
  | c :: rest, acc => splitComma rest (c :: acc)

/-- Model of `header.split(', ')` from main.ts line 115: split at every
occurrence of the two-character separator comma-space. -/
def splitCommaSpace : List Char → List Char → List (List Char)
  | [], acc => [acc.reverse]
  | ',' :: ' ' :: rest, acc => acc.reverse :: splitCommaSpace rest []
  | c :: rest, acc => splitCommaSpace rest (c :: acc)

/-- `Array.prototype.join(', ')` on a list of strings. -/
def joinCommaSpace : List String → String
  | [] => ""
  | [x] => x
  | x :: xs => x ++ ", " ++ joinCommaSpace xs

/-- Model of the JavaScript first-occurrence de-duplication
`array.filter((value, index, array) => array.indexOf(value) === index)`
(main.ts line 185), accumulator of already-seen values. -/
def dedupFirstAux (seen : List String) : List String → List String
  | [] => []
  | x :: xs =>
    if x ∈ seen then dedupFirstAux seen xs
    else x :: dedupFirstAux (x :: seen) xs

/-- First-occurrence de-duplication of a list of strings. -/
def dedupFirst (l : List String) : List String :=
  dedupFirstAux [] l

/-! ## WHATWG UTF-8 decoding

`getOrCompress` (main.ts line 81) builds its cache key from
`textDecoder.decode(buffer)` where `textDecoder = new TextDecoder()`.
This is the platform's WHATWG UTF-8 decoder with replacement-character
error handling; it is modelled here byte-for-byte after the WHATWG
"UTF-8 decode" algorithm. -/

/-- The Unicode replacement character U+FFFD emitted for invalid input. -/
def replacementChar : Char := Char.ofNat 0xFFFD

/-- WHATWG UTF-8 decode with replacement on errors, as performed by
`new TextDecoder().decode`.  Invalid bytes yield U+FFFD and decoding
resumes at the next byte. -/
def utf8Decode : List Nat → List Char
  | [] => []
  | b :: rest =>
    if b < 0x80 then
      Char.ofNat b :: utf8Decode rest
    else if 0xC2 ≤ b ∧ b ≤ 0xDF then
      match rest with
      | [] => [replacementChar]
      | b2 :: rest2 =>
        if 0x80 ≤ b2 ∧ b2 ≤ 0xBF then
          Char.ofNat ((b % 0x20) * 0x40 + (b2 % 0x40)) :: utf8Decode rest2
        else
          replacementChar :: utf8Decode (b2 :: rest2)
    else if 0xE0 ≤ b ∧ b ≤ 0xEF then
      match rest with
      | [] => [replacementChar]
      | b2 :: rest2 =>
        if (if b = 0xE0 then 0xA0 else 0x80) ≤ b2 ∧
            b2 ≤ (if b = 0xED then 0x9F else 0xBF) then
          match rest2 with
          | [] => [replacementChar]
          | b3 :: rest3 =>
            if 0x80 ≤ b3 ∧ b3 ≤ 0xBF then
              Char.ofNat ((b % 0x10) * 0x1000 + (b2 % 0x40) * 0x40 + (b3 % 0x40)) ::
                utf8Decode rest3
            else
              replacementChar :: utf8Decode (b3 :: rest3)
        else
          replacementChar :: utf8Decode (b2 :: rest2)
    else if 0xF0 ≤ b ∧ b ≤ 0xF4 then
      match rest with
      | [] => [replacementChar]
      | b2 :: rest2 =>
        if (if b = 0xF0 then 0x90 else 0x80) ≤ b2 ∧
            b2 ≤ (if b = 0xF4 then 0x8F else 0xBF) then
          match rest2 with
          | [] => [replacementChar]
          | b3 :: rest3 =>
            if 0x80 ≤ b3 ∧ b3 ≤ 0xBF then
              match rest3 with
              | [] => [replacementChar]
              | b4 :: rest4 =>
                if 0x80 ≤ b4 ∧ b4 ≤ 0xBF then
                  Char.ofNat ((b % 0x08) * 0x40000 + (b2 % 0x40) * 0x1000 +
                      (b3 % 0x40) * 0x40 + (b4 % 0x40)) :: utf8Decode rest4
                else
                  replacementChar :: utf8Decode (b4 :: rest4)
            else
              replacementChar :: utf8Decode (b3 :: rest3)
        else
          replacementChar :: utf8Decode (b2 :: rest2)
    else
      replacementChar :: utf8Decode rest

/-! ## Headers, requests and responses

Fetch-API `Headers` are modelled as association lists with
case-insensitive name lookup; `Headers.set` replaces any existing entry
for the (case-insensitive) name. -/

/-- `headers.get(name)`: case-insensitive lookup of a header value. -/
def headersGet (hs : List (String × String)) (name : String) : Option String :=
  (hs.find? (fun p => jsLower p.1 == jsLower name)).map Prod.snd

/-- `headers.set(name, value)`: drop existing entries for the name
(case-insensitively) and record the new value. -/
def headersSet (hs : List (String × String)) (name value : String) :
    List (String × String) :=
  hs.filter (fun p => jsLower p.1 != jsLower name) ++ [(name, value)]

/-- The incoming `Request`: only its headers are consulted. -/
structure Req where
  headers : List (String × String)
deriving DecidableEq, Repr

/-- An HTTP `Response`: status, status text, headers, the body bytes, and
whether `response.body` is a `ReadableStream` (`instanceof ReadableStream`
at main.ts line 133). -/
structure Resp where
  status : Nat
  statusText : String
  headers : List (String × String)
  body : Bytes
  bodyIsStream : Bool
deriving DecidableEq, Repr

/-- `response.ok`: status within 200–299. -/
def respOk (r : Resp) : Bool :=
  200 ≤ r.status && r.status ≤ 299

/-- JavaScript truthiness of `req.headers.get('x-no-compression')`
(main.ts line 103): an absent header or an empty string is falsy. -/
def hdrTruthy : Option String → Bool
  | some v => v != ""
  | none => false

/-! ## Configuration resolution (main.ts lines 54–61)

`CompressionOptions & LifeCycleOptions & CacheOptions` from types.ts,
restricted to the fields this core reads (the brotli/zlib tuning objects
are passed opaquely to the external compressors, and `as` is consumed by
the external router).  `CompressionEncoding` is one of the string tokens
`"br"`, `"deflate"`, `"gzip"`. -/

structure Options where
  encodings : Option (List String) := none
  disableByHeader : Option Bool := none
  threshold : Option Nat := none
  TTL : Option Nat := none
  compressStream : Option Bool := none
deriving Repr

/-- The per-instance constants resolved from the options. -/
structure Config where
  encodings : List String
  disableByHeader : Bool
  threshold : Nat
  ttl : Nat
  compressStream : Bool
deriving Repr

/-- Resolution of defaults performed at middleware construction,
mirroring main.ts lines 54–61 (`options?.x ?? default`). -/
def resolveConfig (options : Options) : Config where
  encodings := options.encodings.getD ["br", "gzip", "deflate"]
  disableByHeader := options.disableByHeader.getD true
  threshold := options.threshold.getD 1024
  ttl := options.TTL.getD (24 * 60 * 60)
  compressStream := options.compressStream.getD true

/-! ## The compressible-content-type classifier (main.ts lines 55–56)

`defaultCompressibleTypes` is the regular expression
`/^text\/(?!event-stream)|(?:\+|\/)json(?:;|$)|(?:\+|\/)text(?:;|$)|(?:\+|\/)xml(?:;|$)|octet-stream(?:;|$)/u`
used with `RegExp.prototype.test`, i.e. "some position of the string
matches some alternative".  Only the first alternative is anchored. -/

/-- Does `pat` occur at the start of `s` immediately followed by `';'` or
the end of the string?  (The `(?:;|$)` tail common to all unanchored
alternatives.) -/
def matchSemiEnd (pat s : List Char) : Bool :=
  pat.isPrefixOf s && ((s.drop pat.length).isEmpty || (s.drop pat.length).head? == some ';')

/-- Does `pat` occur anywhere in `s` immediately followed by `';'` or the
end of the string? -/
def hasTokSemiEnd (pat : List Char) : List Char → Bool
  | [] => false
  | c :: rest => matchSemiEnd pat (c :: rest) || hasTokSemiEnd pat rest

/-- `defaultCompressibleTypes.test contentType`: transcription of the
classifier regex from main.ts lines 55–56. -/
def defaultCompressibleTypes (s : String) : Bool :=
  let cs := s.data
  ("text/".data.isPrefixOf cs && !("event-stream".data.isPrefixOf (cs.drop 5)))
    || hasTokSemiEnd "+json".data cs || hasTokSemiEnd "/json".data cs
    || hasTokSemiEnd "+text".data cs || hasTokSemiEnd "/text".data cs
    || hasTokSemiEnd "+xml".data cs || hasTokSemiEnd "/xml".data cs
    || hasTokSemiEnd "octet-stream".data cs

/-- The buffered-path compressibility test of main.ts lines 148–149:
`!contentType || defaultCompressibleTypes.test(contentType)`. -/
def isCompressible (contentType : String) : Bool :=
  contentType == "" || defaultCompressibleTypes contentType

/-! ## The expiring cache

Modelled from the spec: the cache module imported as `cacheStore` at
main.ts line 18 (`src/cache`, not present in the sources).  Per spec
§4.1/§3 it is a process-wide key→value store where each entry carries a
creation time and a time-to-live; an entry is visible to lookups only
while `now < createdAt + TTL`, and once expired is indistinguishable from
absent; `set` overwrites an existing entry for the same key and resets
its TTL clock. -/

structure CacheEntry where
  key : String
  value : Bytes
  createdAt : Nat
  ttl : Nat
deriving DecidableEq, Repr

abbrev CacheState := List CacheEntry

/-- Modelled from the spec: `cacheStore.has`/`cacheStore.get` combined —
return the stored value for the key when present and unexpired at the
current time, `none` otherwise. -/
def cacheLookup (cache : CacheState) (key : String) (now : Nat) : Option Bytes :=
  match cache.find? (fun e => e.key == key) with
  | some e => if now < e.createdAt + e.ttl then some e.value else none
  | none => none

/-- Modelled from the spec: `cacheStore.set(key, value, ttl)` — overwrite
any entry for the key and reset its TTL clock to the current time. -/
def cacheSet (cache : CacheState) (key : String) (value : Bytes)
    (now ttl : Nat) : CacheState :=
  ⟨key, value, now, ttl⟩ :: cache.filter (fun e => e.key != key)

/-! ## Buffered compression with caching (main.ts lines 77–89) -/

/-- The cache key of main.ts line 81:
`createHash('md5').update(algorithm + ':' + textDecoder.decode(buffer)).digest('hex')`,
with the external MD5 hex digest passed in as `md5hex`. -/
def cacheKeyOf (md5hex : String → String) (algorithm : String) (buffer : Bytes) :
    String :=
  md5hex (algorithm ++ ":" ++ String.mk (utf8Decode buffer))

/-- `getOrCompress` of main.ts lines 77–89.  The per-algorithm compressor
table (`compressors`, backed by `node:zlib`) is an external collaborator
and may fail, modelled as `Except`; a thrown error leaves the cache
untouched and propagates.  Returns the produced result together with the
cache state after the call. -/
def getOrCompress {E : Type} (md5hex : String → String)
    (compressors : String → Bytes → Except E Bytes) (cacheTTL : Nat)
    (algorithm : String) (buffer : Bytes) (cache : CacheState) (now : Nat) :
    Except E Bytes × CacheState :=
  let cacheKey := cacheKeyOf md5hex algorithm buffer
  match cacheLookup cache cacheKey now with
  | some v => (Except.ok v, cache)
  | none =>
    match compressors algorithm buffer with
    | Except.error err => (Except.error err, cache)
    | Except.ok compressedOutput =>
      (Except.ok compressedOutput, cacheSet cache cacheKey compressedOutput now cacheTTL)

/-! ## Encoding negotiation (main.ts lines 114–124) -/

/-- `req.headers.get('accept-encoding')?.split(', ') ?? []`. -/
def acceptTokens : Option String → List String
  | some v => (splitCommaSpace v.data []).map String.mk
  | none => []

/-- `defaultEncodings.filter((encoding) => acceptEncodings.includes(encoding))`:
the configured list filtered to the client-accepted tokens, preserving
configured order. -/
def negotiated (configured : List String) (accept : Option String) : List String :=
  configured.filter (fun encoding => (acceptTokens accept).contains encoding)

/-! ## Vary merging and response rewriting (main.ts lines 166–204) -/

/-- The trim-and-lowercase tokenisation of an existing `Vary` value
(main.ts lines 170–172): split at commas, trim and lowercase each token. -/
def varyTokens (v : String) : List String :=
  (splitComma v.data []).map (fun t => String.mk ((trimChars t).map lowerChar))

/-- The new `Vary` value computed by main.ts lines 167–191: `none` means
the header is left untouched (existing value contains `*`); otherwise the
value to `set`.  An absent or empty existing value (JavaScript falsy)
becomes `accept-encoding`. -/
def computeVary : Option String → Option String
  | none => some "accept-encoding"
  | some v =>
    if v = "" then some "accept-encoding"
    else
      let headerValueArray := varyTokens v
      if "*" ∈ headerValueArray then none
      else
        some (joinCommaSpace (dedupFirst (headerValueArray ++ ["accept-encoding"])))

/-- Construction of the compressed response (main.ts lines 166–204):
copy the headers, merge `Vary`, set `Content-Encoding`, and rebuild the
response with the compressed body, preserving status and status text. -/
def rewriteResp (response : Resp) (encoding : String) (compressedBody : Bytes)
    (isStream : Bool) : Resp :=
  let headers := response.headers
  let headers :=
    match computeVary (headersGet headers "Vary") with
    | some newVary => headersSet headers "Vary" newVary
    | none => headers
  let headers := headersSet headers "Content-Encoding" encoding
  { status := response.status
    statusText := response.statusText
    headers := headers
    body := compressedBody
    bodyIsStream := isStream }

/-! ## The middleware (main.ts lines 36–206)

`compression(options)` returns the per-request handler.  The downstream
continuation's response is passed as `next`; the module-level shared
cache state is threaded explicitly, together with the current time used
by the cache.  `md5hex` stands for `node:crypto`'s MD5 hex digest,
`compressors` for the zlib-backed compressor table, and
`streamCompressor` for the `CompressionStream` transform of the
repository's `compression-stream` module (not present in the sources),
modelled per spec §6 as an opaque consumed interface wrapping the chunk
stream.  The result pairs the outcome for this request (the response, or
a propagated compressor error) with the cache state after the request. -/
def compression {E : Type} (options : Options) (md5hex : String → String)
    (compressors : String → Bytes → Except E Bytes)
    (streamCompressor : String → Bytes → Bytes)
    (req : Req) (next : Resp) (cache : CacheState) (now : Nat) :
    Except E Resp × CacheState :=
  let cfg := resolveConfig options
  if cfg.disableByHeader && hdrTruthy (headersGet req.headers "x-no-compression") then
    (Except.ok next, cache)
  else
    let response := next
    if !respOk response then
      (Except.ok response, cache)
    else
      let encodings := negotiated cfg.encodings (headersGet req.headers "accept-encoding")
      match encodings with
      | [] => (Except.ok response, cache)
      | encoding :: _ =>
        let contentType := (headersGet response.headers "Content-Type").getD ""
        if cfg.compressStream && response.bodyIsStream then
          (Except.ok (rewriteResp response encoding
            (streamCompressor encoding response.body) true), cache)
        else
          if response.body.length < cfg.threshold then
            (Except.ok response, cache)
          else
            if !isCompressible contentType then
              (Except.ok response, cache)
            else
              match getOrCompress md5hex compressors cfg.ttl encoding response.body cache now with
              | (Except.error err, cache2) => (Except.error err, cache2)
              | (Except.ok compressed, cache2) =>
                (Except.ok (rewriteResp response encoding compressed false), cache2)

/-! ## Spec-side definitions used for refinement comparisons -/

/-- Does `pat` occur as a contiguous substring of `s`? -/
def hasSub (pat : List Char) : List Char → Bool
  | [] => pat.isEmpty
  | c :: rest => pat.isPrefixOf (c :: rest) || hasSub pat rest

/-- Claim C4's reading of the classifier's last alternative: a
Content-Type containing the substring `octet-stream` anywhere, with no
constraint on what follows it. -/
def specContainsOctetStream (s : String) : Bool :=
  hasSub "octet-stream".data s.data

/-- Claim C5 as amended, written from the amended claim's words: existing
comma-separated tokens are trimmed and lowercased, duplicates are removed
keeping first occurrences, `accept-encoding` is appended at the end
unless already present among the tokens, and the result is re-joined
with comma-space; an absent or empty value becomes `accept-encoding`;
a value containing the wildcard token `*` is left untouched (`none`). -/
def specVaryMerge : Option String → Option String
  | none => some "accept-encoding"
  | some v =>
    if v = "" then some "accept-encoding"
    else
      let toks := varyTokens v
      if "*" ∈ toks then none
      else
        let kept := dedupFirst toks
        if "accept-encoding" ∈ toks then some (joinCommaSpace kept)
        else some (joinCommaSpace (kept ++ ["accept-encoding"]))

/-! ## Supporting lemmas -/

/-- The head of a filtered list is the first element satisfying the
predicate: the negotiation's `filter`-then-take-first equals a priority
search over the configured list. -/
theorem head?_filter_eq_find? {α : Type} (p : α → Bool) :
    ∀ l : List α, (l.filter p).head? = l.find? p
  | [] => rfl
  | a :: l => by
    by_cases h : p a
    · simp [List.filter_cons, List.find?_cons, h]
    · simp [List.filter_cons, List.find?_cons, h, head?_filter_eq_find? p l]

/-- A freshly stored cache entry is returned by a lookup at any time
strictly before its expiry. -/
theorem cacheLookup_cacheSet_self (cache : CacheState) (key : String)
    (value : Bytes) (now ttl now2 : Nat) (h : now2 < now + ttl) :
    cacheLookup (cacheSet cache key value now ttl) key now2 = some value := by
  simp [cacheLookup, cacheSet, List.find?_cons, h]

/-- Appending one element and de-duplicating keeps the element only when
it is new, relative to both the accumulator and the list. -/
theorem dedupFirstAux_append_singleton (x : String) :
    ∀ (l seen : List String),
      dedupFirstAux seen (l ++ [x]) =
        if x ∈ seen ∨ x ∈ l then dedupFirstAux seen l
        else dedupFirstAux seen l ++ [x]
  | [], seen => by
    by_cases h : x ∈ seen <;> simp [dedupFirstAux, h]
  | y :: ys, seen => by
    have ih1 := dedupFirstAux_append_singleton x ys seen
    have ih2 := dedupFirstAux_append_singleton x ys (y :: seen)
    by_cases hy : y ∈ seen
    · by_cases hxy : x = y
      · subst hxy
        simp [dedupFirstAux, hy, ih1, List.mem_cons]
      · simp only [List.cons_append, dedupFirstAux, if_pos hy, ih1, List.mem_cons]
        by_cases hxs : x ∈ seen <;> by_cases hxl : x ∈ ys <;> simp_all
    · by_cases hxy : x = y
      · subst hxy
        simp [dedupFirstAux, hy, ih2, List.mem_cons]
      · simp only [List.cons_append, dedupFirstAux, if_neg hy, ih2, List.mem_cons]
        by_cases hxs : x ∈ seen <;> by_cases hxl : x ∈ ys <;> simp_all

/-- First-occurrence de-duplication after appending a single element. -/
theorem dedupFirst_append_singleton (l : List String) (x : String) :
    dedupFirst (l ++ [x]) =
      if x ∈ l then dedupFirst l else dedupFirst l ++ [x] := by
  have h := dedupFirstAux_append_singleton x l []
  simpa [dedupFirst] using h

/-- If negotiation yields no encoding the middleware returns the response
and the cache unchanged. -/
theorem compression_unchanged_of_no_encoding {E : Type} (options : Options)
    (md5hex : String → String) (compressors : String → Bytes → Except E Bytes)
    (streamCompressor : String → Bytes → Bytes) (req : Req) (resp : Resp)
    (cache : CacheState) (now : Nat)
    (h : negotiated (resolveConfig options).encodings
        (headersGet req.headers "accept-encoding") = []) :
    compression options md5hex compressors streamCompressor req resp cache now =
      (Except.ok resp, cache) := by
  unfold compression
  dsimp only
  split
  · rfl
  · split
    · rfl
    · rw [h]

/-- On the buffered path a body smaller than the threshold leaves the
response and the cache unchanged. -/
theorem compression_unchanged_of_small_buffered {E : Type} (options : Options)
    (md5hex : String → String) (compressors : String → Bytes → Except E Bytes)
    (streamCompressor : String → Bytes → Bytes) (req : Req) (resp : Resp)
    (cache : CacheState) (now : Nat)
    (hbuf : ¬((resolveConfig options).compressStream = true ∧ resp.bodyIsStream = true))
    (hsize : resp.body.length < (resolveConfig options).threshold) :
    compression options md5hex compressors streamCompressor req resp cache now =
      (Except.ok resp, cache) := by
  unfold compression
  dsimp only
  split
  · rfl
  · split
    · rfl
    · split
      · rfl
      · have hb : ¬(((resolveConfig options).compressStream && resp.bodyIsStream) = true) := by
          simp only [Bool.and_eq_true]
          exact hbuf
        rw [if_neg hb]

/-- On the buffered path a response whose Content-Type fails the
compressibility test is returned unchanged. -/
theorem compression_unchanged_of_noncompressible {E : Type} (options : Options)
    (md5hex : String → String) (compressors : String → Bytes → Except E Bytes)
    (streamCompressor : String → Bytes → Bytes) (req : Req) (resp : Resp)
    (cache : CacheState) (now : Nat)
    (hbuf : ¬((resolveConfig options).compressStream = true ∧ resp.bodyIsStream = true))
    (hct : isCompressible ((headersGet resp.headers "Content-Type").getD "") = false) :
    compression options md5hex compressors streamCompressor req resp cache now =
      (Except.ok resp, cache) := by
  unfold compression
  dsimp only
  split
  · rfl
  · split
    · rfl
    · split
      · rfl
      · have hb : ¬(((resolveConfig options).compressStream && resp.bodyIsStream) = true) := by
          simp only [Bool.and_eq_true]
          exact hbuf
        rw [if_neg hb]
        split
        · rfl
        · rw [if_pos (show (!isCompressible ((headersGet resp.headers "Content-Type").getD "")) = true by simp [hct])]

/-! ## Claim theorems -/

/-- C1: encoding negotiation filters the configured list to the tokens
the client accepts preserving configured order, the selected encoding is
the first surviving entry (a priority search over the configured list),
the response is returned uncompressed when none survives, and with
`Accept-Encoding: gzip` against configured `[br, gzip, deflate]` the
negotiated algorithm is `gzip`; configured priority also beats client
order (`gzip, br` still negotiates `br`). -/
theorem C1_negotiation :
    (negotiated ["br", "gzip", "deflate"] (some "gzip")).head? = some "gzip"
    ∧ (negotiated ["br", "gzip", "deflate"] (some "gzip, br")).head? = some "br"
    ∧ (∀ (configured : List String) (accept : Option String),
        (negotiated configured accept).head? =
          configured.find? (fun encoding => (acceptTokens accept).contains encoding))
    ∧ (∀ (E : Type) (options : Options) (md5hex : String → String)
        (compressors : String → Bytes → Except E Bytes)
        (streamCompressor : String → Bytes → Bytes) (req : Req) (resp : Resp)
        (cache : CacheState) (now : Nat),
        negotiated (resolveConfig options).encodings
            (headersGet req.headers "accept-encoding") = [] →
        compression options md5hex compressors streamCompressor req resp cache now =
          (Except.ok resp, cache)) := by
  refine ⟨by decide, by decide, ?_, ?_⟩
  · intro configured accept
    exact head?_filter_eq_find? _ configured
  · intro E options md5hex compressors streamCompressor req resp cache now h
    exact compression_unchanged_of_no_encoding options md5hex compressors
      streamCompressor req resp cache now h

/-- Witness for C1 at concrete inputs: the concrete negotiation fact, and
a client accepting only `identity` (so negotiation survives nothing)
receives the response and cache unchanged. -/
theorem C1_negotiation_witness :
    (negotiated ["br", "gzip", "deflate"] (some "gzip")).head? = some "gzip"
    ∧ compression (E := Unit) {} id (fun _ b => Except.ok b) (fun _ b => b)
        ⟨[("accept-encoding", "identity")]⟩ ⟨200, "OK", [], [], false⟩ [] 0 =
      (Except.ok ⟨200, "OK", [], [], false⟩, ([] : CacheState)) :=
  ⟨C1_negotiation.1,
   C1_negotiation.2.2.2 Unit {} id (fun _ b => Except.ok b) (fun _ b => b)
     ⟨[("accept-encoding", "identity")]⟩ ⟨200, "OK", [], [], false⟩ [] 0 (by decide)⟩

/-- C3 counterexample: with the default configuration (`compressStream`
resolves to `true`, threshold 1024) a 5-byte stream-bodied 200 response
with `Accept-Encoding: gzip` is NOT returned byte-identical: the stream
path ignores the threshold and a `Content-Encoding: gzip` and a `Vary`
header are added. -/
theorem C3_counterexample :
    ([104, 101, 108, 108, 111] : Bytes).length < (resolveConfig {}).threshold
    ∧ compression (E := Unit) {} id (fun _ b => Except.ok b) (fun _ b => b)
        ⟨[("accept-encoding", "gzip")]⟩
        ⟨200, "OK", [], [104, 101, 108, 108, 111], true⟩ [] 0 =
      (Except.ok ⟨200, "OK",
          [("Vary", "accept-encoding"), ("Content-Encoding", "gzip")],
          [104, 101, 108, 108, 111], true⟩, ([] : CacheState))
    ∧ (⟨200, "OK", [("Vary", "accept-encoding"), ("Content-Encoding", "gzip")],
          [104, 101, 108, 108, 111], true⟩ : Resp) ≠
        ⟨200, "OK", [], [104, 101, 108, 108, 111], true⟩
    ∧ headersGet [("Vary", "accept-encoding"), ("Content-Encoding", "gzip")]
        "Content-Encoding" = some "gzip" := by
  decide

/-- C3 as amended: on the buffered path — stream compression disabled or
the body not a `ReadableStream` — every response whose body size is
strictly below the configured threshold is returned byte-identical, with
no `Content-Encoding` or `Vary` header added and the cache untouched. -/
theorem C3_threshold_gate {E : Type} (options : Options)
    (md5hex : String → String) (compressors : String → Bytes → Except E Bytes)
    (streamCompressor : String → Bytes → Bytes) (req : Req) (resp : Resp)
    (cache : CacheState) (now : Nat)
    (hbuf : ¬((resolveConfig options).compressStream = true ∧ resp.bodyIsStream = true))
    (hsize : resp.body.length < (resolveConfig options).threshold) :
    compression options md5hex compressors streamCompressor req resp cache now =
      (Except.ok resp, cache) :=
  compression_unchanged_of_small_buffered options md5hex compressors
    streamCompressor req resp cache now hbuf hsize

/-- Witness for C3's amended theorem: a 2-byte non-stream body under the
default 1024 threshold passes through unchanged. -/
theorem C3_threshold_gate_witness :
    compression (E := Unit) {} id (fun _ b => Except.ok b) (fun _ b => b)
      ⟨[("accept-encoding", "gzip")]⟩ ⟨200, "OK", [], [104, 105], false⟩ [] 0 =
      (Except.ok ⟨200, "OK", [], [104, 105], false⟩, ([] : CacheState)) :=
  C3_threshold_gate {} id (fun _ b => Except.ok b) (fun _ b => b)
    ⟨[("accept-encoding", "gzip")]⟩ ⟨200, "OK", [], [104, 105], false⟩ [] 0
    (by decide) (by decide)

/-- C4 counterexample: the claim reads the classifier's last alternative
as "containing octet-stream", but the source regex requires `;` or end of
string right after it: `application/octet-streamx` contains the substring
yet fails the classifier, and a response carrying it is returned
unchanged instead of compressed. -/
theorem C4_counterexample :
    specContainsOctetStream "application/octet-streamx" = true
    ∧ defaultCompressibleTypes "application/octet-streamx" = false
    ∧ compression (E := Unit) { threshold := some 1, compressStream := some false }
        id (fun _ b => Except.ok b) (fun _ b => b) ⟨[("accept-encoding", "gzip")]⟩
        ⟨200, "OK", [("Content-Type", "application/octet-streamx")], [104, 105], false⟩
        [] 0 =
      (Except.ok ⟨200, "OK", [("Content-Type", "application/octet-streamx")],
          [104, 105], false⟩, ([] : CacheState)) := by
  decide

/-- C4 as amended: on the buffered path a present Content-Type failing
the classifier leaves the response unchanged; an absent or empty
Content-Type counts as compressible; and the classifier matches strings
starting with `text/` not immediately followed by `event-stream`, or
containing `+json`, `/json`, `+text`, `/text`, `+xml`, `/xml` or
`octet-stream` immediately followed by `;` or the end of the string —
checked here on representative types. -/
theorem C4_content_type_gate :
    (∀ (E : Type) (options : Options) (md5hex : String → String)
      (compressors : String → Bytes → Except E Bytes)
      (streamCompressor : String → Bytes → Bytes) (req : Req) (resp : Resp)
      (cache : CacheState) (now : Nat),
      ¬((resolveConfig options).compressStream = true ∧ resp.bodyIsStream = true) →
      isCompressible ((headersGet resp.headers "Content-Type").getD "") = false →
      compression options md5hex compressors streamCompressor req resp cache now =
        (Except.ok resp, cache))
    ∧ isCompressible "" = true
    ∧ defaultCompressibleTypes "text/html" = true
    ∧ defaultCompressibleTypes "text/event-stream" = false
    ∧ defaultCompressibleTypes "application/json" = true
    ∧ defaultCompressibleTypes "application/json;charset=utf-8" = true
    ∧ defaultCompressibleTypes "application/xml" = true
    ∧ defaultCompressibleTypes "image/svg+xml" = true
    ∧ defaultCompressibleTypes "application/octet-stream" = true
    ∧ defaultCompressibleTypes "image/png" = false
    ∧ defaultCompressibleTypes "application/pdf" = false := by
  refine ⟨?_, by decide, by decide, by decide, by decide, by decide, by decide,
    by decide, by decide, by decide, by decide⟩
  intro E options md5hex compressors streamCompressor req resp cache now hbuf hct
  exact compression_unchanged_of_noncompressible options md5hex compressors
    streamCompressor req resp cache now hbuf hct

/-- Witness for C4's amended theorem: a buffered `image/png` response
above threshold passes through unchanged. -/
theorem C4_content_type_gate_witness :
    compression (E := Unit) { threshold := some 1, compressStream := some false }
      id (fun _ b => Except.ok b) (fun _ b => b) ⟨[("accept-encoding", "gzip")]⟩
      ⟨200, "OK", [("Content-Type", "image/png")], [104, 105], false⟩ [] 0 =
      (Except.ok ⟨200, "OK", [("Content-Type", "image/png")], [104, 105], false⟩,
        ([] : CacheState)) :=
  C4_content_type_gate.1 Unit { threshold := some 1, compressStream := some false }
    id (fun _ b => Except.ok b) (fun _ b => b) ⟨[("accept-encoding", "gzip")]⟩
    ⟨200, "OK", [("Content-Type", "image/png")], [104, 105], false⟩ [] 0
    (by decide) (by decide)

/-- C5 counterexample: existing `Vary` tokens are NOT kept with case
preserved — compressing a response with `Vary: Location` yields
`vary: location, accept-encoding` (lowercased), not
`Location, accept-encoding` as the claim states. -/
theorem C5_counterexample :
    compression (E := Unit) { threshold := some 1, compressStream := some false }
        id (fun _ b => Except.ok b) (fun _ b => b) ⟨[("accept-encoding", "gzip")]⟩
        ⟨200, "OK", [("Vary", "Location")], [104, 105], false⟩ [] 0 =
      (Except.ok ⟨200, "OK",
          [("Vary", "location, accept-encoding"), ("Content-Encoding", "gzip")],
          [104, 105], false⟩,
        [⟨"gzip:hi", [104, 105], 0, 86400⟩])
    ∧ headersGet [("Vary", "location, accept-encoding"), ("Content-Encoding", "gzip")]
        "Vary" = some "location, accept-encoding"
    ∧ ("location, accept-encoding" : String) ≠ "Location, accept-encoding" := by
  decide

/-- C5 as amended: when compression is applied, an absent (or empty)
`Vary` becomes `accept-encoding`; a value containing the wildcard token
`*` is left untouched; otherwise the existing tokens are trimmed and
lowercased (case NOT preserved), duplicates are dropped keeping first
occurrences, `accept-encoding` is appended at the end unless already
present, and the tokens are re-joined with comma-space — the source's
merge computation coincides with this rule on every input, and
`Vary: location, header` becomes `location, header, accept-encoding`. -/
theorem C5_vary_merge :
    (∀ v : Option String, computeVary v = specVaryMerge v)
    ∧ computeVary (some "location, header") = some "location, header, accept-encoding"
    ∧ computeVary (some "*") = none
    ∧ computeVary none = some "accept-encoding" := by
  refine ⟨?_, by decide, by decide, by decide⟩
  intro v
  match v with
  | none => rfl
  | some s =>
    simp only [computeVary, specVaryMerge]
    by_cases hs : s = ""
    · simp [hs]
    · simp only [if_neg hs]
      by_cases hstar : "*" ∈ varyTokens s
      · simp [hstar]
      · simp only [if_neg hstar, dedupFirst_append_singleton]
        by_cases hae : "accept-encoding" ∈ varyTokens s <;> simp [hae]

/-- C6 counterexample: a header listing several encodings separated by a
comma WITHOUT a following space is not recognized — `gzip,deflate` parses
as the single token `gzip,deflate`, negotiation survives nothing, and a
compressible over-threshold response passes through uncompressed even
though the client listed `gzip`. -/
theorem C6_counterexample :
    acceptTokens (some "gzip,deflate") = ["gzip,deflate"]
    ∧ negotiated ["br", "gzip", "deflate"] (some "gzip,deflate") = []
    ∧ compression (E := Unit) { threshold := some 1, compressStream := some false }
        id (fun _ b => Except.ok b) (fun _ b => b)
        ⟨[("accept-encoding", "gzip,deflate")]⟩
        ⟨200, "OK", [], [104, 105], false⟩ [] 0 =
      (Except.ok ⟨200, "OK", [], [104, 105], false⟩, ([] : CacheState)) := by
  decide

/-- C6 as amended: the `Accept-Encoding` value is split on the exact
two-character delimiter comma-space (tokens separated by `", "` are each
recognized; comma-only separation yields one unrecognized token), no
q-values are interpreted (a token carrying `;q=` never matches), and a
client sending `*` alone is not treated as accepting every algorithm:
compression is skipped whenever `*` is not itself a configured token. -/
theorem C6_accept_parsing :
    acceptTokens none = []
    ∧ (∀ s : String, acceptTokens (some s) = (splitCommaSpace s.data []).map String.mk)
    ∧ acceptTokens (some "gzip, deflate") = ["gzip", "deflate"]
    ∧ negotiated ["br", "gzip", "deflate"] (some "gzip, deflate") = ["gzip", "deflate"]
    ∧ negotiated ["br", "gzip", "deflate"] (some "gzip;q=1.0") = []
    ∧ (∀ (E : Type) (options : Options) (md5hex : String → String)
        (compressors : String → Bytes → Except E Bytes)
        (streamCompressor : String → Bytes → Bytes) (req : Req) (resp : Resp)
        (cache : CacheState) (now : Nat),
        headersGet req.headers "accept-encoding" = some "*" →
        ("*" : String) ∉ (resolveConfig options).encodings →
        compression options md5hex compressors streamCompressor req resp cache now =
          (Except.ok resp, cache)) := by
  refine ⟨by decide, fun s => rfl, by decide, by decide, by decide, ?_⟩
  intro E options md5hex compressors streamCompressor req resp cache now hacc hstar
  apply compression_unchanged_of_no_encoding
  rw [hacc]
  unfold negotiated
  rw [List.filter_eq_nil_iff]
  intro encoding hmem hcontains
  have h1 : acceptTokens (some "*") = ["*"] := by decide
  rw [h1] at hcontains
  simp at hcontains
  subst hcontains
  exact hstar hmem

/-- Witness for C6's amended theorem: a client sending `*` alone, with
the default configured encodings, receives the response and cache
unchanged. -/
theorem C6_accept_parsing_witness :
    acceptTokens (some "gzip, deflate") = ["gzip", "deflate"]
    ∧ compression (E := Unit) {} id (fun _ b => Except.ok b) (fun _ b => b)
        ⟨[("accept-encoding", "*")]⟩ ⟨200, "OK", [], [104, 105], false⟩ [] 0 =
      (Except.ok ⟨200, "OK", [], [104, 105], false⟩, ([] : CacheState)) :=
  ⟨C6_accept_parsing.2.2.1,
   C6_accept_parsing.2.2.2.2.2 Unit {} id (fun _ b => Except.ok b) (fun _ b => b)
     ⟨[("accept-encoding", "*")]⟩ ⟨200, "OK", [], [104, 105], false⟩ [] 0
     (by decide) (by decide)⟩

/-- C7: the code resolves an unsupplied `compressStream` option to
`true` — stream (SSE) compression is enabled by default — contradicting
the `@default false` documentation in types.ts and the claim. -/
theorem C7_compressStream_default_eval :
    (resolveConfig {}).compressStream = true := rfl

/-- C2: on a cache miss `getOrCompress` invokes the compressor, stores
its result under the configured TTL, and returns it; a second call for
the same algorithm and body within the TTL window returns the identical
bytes and leaves the cache unchanged, for EVERY compressor function —
so the underlying compressor is observably not invoked on the hit. -/
theorem C2_cache_hit_and_miss (E : Type) (md5hex : String → String)
    (compressors : String → Bytes → Except E Bytes) (cacheTTL : Nat)
    (algorithm : String) (buffer : Bytes) (cache : CacheState) (now : Nat)
    (out : Bytes)
    (hmiss : cacheLookup cache (cacheKeyOf md5hex algorithm buffer) now = none)
    (hok : compressors algorithm buffer = Except.ok out) :
    getOrCompress md5hex compressors cacheTTL algorithm buffer cache now =
      (Except.ok out,
        cacheSet cache (cacheKeyOf md5hex algorithm buffer) out now cacheTTL)
    ∧ ∀ (compressors2 : String → Bytes → Except E Bytes) (now2 : Nat),
        now2 < now + cacheTTL →
        getOrCompress md5hex compressors2 cacheTTL algorithm buffer
            (cacheSet cache (cacheKeyOf md5hex algorithm buffer) out now cacheTTL)
            now2 =
          (Except.ok out,
            cacheSet cache (cacheKeyOf md5hex algorithm buffer) out now cacheTTL) := by
  constructor
  · simp [getOrCompress, hmiss, hok]
  · intro compressors2 now2 h2
    simp [getOrCompress, cacheLookup_cacheSet_self _ _ _ _ _ _ h2]

/-- Witness for C2: a concrete miss stores and returns the compressor's
output, and a second call within the TTL — with a compressor that would
fail if invoked — still returns the identical cached bytes. -/
theorem C2_cache_hit_and_miss_witness :
    getOrCompress (E := Unit) id (fun _ b => Except.ok (0 :: b)) 60 "gzip"
        [104, 105] [] 5 =
      (Except.ok [0, 104, 105],
        cacheSet [] (cacheKeyOf id "gzip" [104, 105]) [0, 104, 105] 5 60)
    ∧ getOrCompress (E := Unit) id (fun _ _ => Except.error ()) 60 "gzip" [104, 105]
        (cacheSet [] (cacheKeyOf id "gzip" [104, 105]) [0, 104, 105] 5 60) 30 =
      (Except.ok [0, 104, 105],
        cacheSet [] (cacheKeyOf id "gzip" [104, 105]) [0, 104, 105] 5 60) :=
  ⟨(C2_cache_hit_and_miss Unit id (fun _ b => Except.ok (0 :: b)) 60 "gzip"
      [104, 105] [] 5 [0, 104, 105] (by decide) rfl).1,
   (C2_cache_hit_and_miss Unit id (fun _ b => Except.ok (0 :: b)) 60 "gzip"
      [104, 105] [] 5 [0, 104, 105] (by decide) rfl).2
     (fun _ _ => Except.error ()) 30 (by decide)⟩

/-- C8: when on the buffered path the underlying compressor fails, the
error propagates out of the middleware for that request — no retry, no
fallback to the uncompressed response — and the cache after the request
is exactly the cache before it (no entry stored for the key). -/
theorem C8_compressor_error (E : Type) (options : Options)
    (md5hex : String → String) (compressors : String → Bytes → Except E Bytes)
    (streamCompressor : String → Bytes → Bytes) (req : Req) (resp : Resp)
    (cache : CacheState) (now : Nat) (encoding : String) (rest : List String)
    (err : E)
    (hdis : ¬(((resolveConfig options).disableByHeader &&
        hdrTruthy (headersGet req.headers "x-no-compression")) = true))
    (hok : respOk resp = true)
    (henc : negotiated (resolveConfig options).encodings
        (headersGet req.headers "accept-encoding") = encoding :: rest)
    (hbuf : ¬(((resolveConfig options).compressStream && resp.bodyIsStream) = true))
    (hthr : ¬(resp.body.length < (resolveConfig options).threshold))
    (hct : isCompressible ((headersGet resp.headers "Content-Type").getD "") = true)
    (hmiss : cacheLookup cache (cacheKeyOf md5hex encoding resp.body) now = none)
    (herr : compressors encoding resp.body = Except.error err) :
    compression options md5hex compressors streamCompressor req resp cache now =
      (Except.error err, cache) := by
  unfold compression
  dsimp only
  rw [if_neg hdis]
  rw [if_neg (show ¬((!respOk resp) = true) by simp [hok])]
  rw [henc]
  dsimp only
  rw [if_neg hbuf, if_neg hthr]
  rw [if_neg (show ¬((!isCompressible ((headersGet resp.headers "Content-Type").getD "")) = true) by simp [hct])]
  simp [getOrCompress, hmiss, herr]

/-- Witness for C8: a concrete buffered request whose compressor always
throws yields the propagated error and an unchanged (empty) cache. -/
theorem C8_compressor_error_witness :
    compression (E := String) { threshold := some 1, compressStream := some false }
        id (fun _ _ => Except.error "boom") (fun _ b => b)
        ⟨[("accept-encoding", "gzip")]⟩ ⟨200, "OK", [], [104, 105], false⟩ [] 0 =
      (Except.error "boom", ([] : CacheState)) :=
  C8_compressor_error String { threshold := some 1, compressStream := some false }
    id (fun _ _ => Except.error "boom") (fun _ b => b)
    ⟨[("accept-encoding", "gzip")]⟩ ⟨200, "OK", [], [104, 105], false⟩ [] 0
    "gzip" [] "boom" (by decide) (by decide) (by decide) (by decide)
    (by decide) (by decide) (by decide) rfl

/-- C9: the cache key is the hash of the algorithm token plus the
TextDecoder-decoded text of the body, so two distinct byte sequences
with equal decodings share the key, and after one is compressed and
cached, a later call for the other — within the TTL, with any compressor
— returns the first body's cached compressed bytes. -/
theorem C9_cache_key_decoding (E : Type) (md5hex : String → String)
    (cacheTTL : Nat) (algorithm : String) (b1 b2 : Bytes) (cache : CacheState)
    (now now2 : Nat) (compressors1 compressors2 : String → Bytes → Except E Bytes)
    (out1 : Bytes)
    (hdec : utf8Decode b1 = utf8Decode b2)
    (hmiss : cacheLookup cache (cacheKeyOf md5hex algorithm b1) now = none)
    (hok : compressors1 algorithm b1 = Except.ok out1)
    (hfresh : now2 < now + cacheTTL) :
    cacheKeyOf md5hex algorithm b1 = cacheKeyOf md5hex algorithm b2
    ∧ getOrCompress md5hex compressors2 cacheTTL algorithm b2
        (getOrCompress md5hex compressors1 cacheTTL algorithm b1 cache now).2 now2 =
      (Except.ok out1,
        (getOrCompress md5hex compressors1 cacheTTL algorithm b1 cache now).2) := by
  have hkey : cacheKeyOf md5hex algorithm b1 = cacheKeyOf md5hex algorithm b2 := by
    unfold cacheKeyOf
    rw [hdec]
  refine ⟨hkey, ?_⟩
  have h1 : (getOrCompress md5hex compressors1 cacheTTL algorithm b1 cache now).2 =
      cacheSet cache (cacheKeyOf md5hex algorithm b1) out1 now cacheTTL := by
    simp [getOrCompress, hmiss, hok]
  rw [h1]
  have hl := cacheLookup_cacheSet_self cache (cacheKeyOf md5hex algorithm b1) out1
    now cacheTTL now2 hfresh
  simp [getOrCompress, ← hkey, hl]

/-- Witness for C9: `[0xFF]` and `[0xFE]` are distinct bodies that both
decode to a single replacement character; after compressing `[0xFF]`,
asking for `[0xFE]` — with a compressor that would fail if invoked —
returns the bytes cached for `[0xFF]`. -/
theorem C9_cache_key_decoding_witness :
    ([255] : Bytes) ≠ [254]
    ∧ cacheKeyOf id "gzip" [255] = cacheKeyOf id "gzip" [254]
    ∧ getOrCompress (E := Unit) id (fun _ _ => Except.error ()) 60 "gzip" [254]
        (getOrCompress (E := Unit) id (fun _ _ => Except.ok [9]) 60 "gzip" [255] [] 0).2
        10 =
      (Except.ok [9],
        (getOrCompress (E := Unit) id (fun _ _ => Except.ok [9]) 60 "gzip" [255] [] 0).2) :=
  ⟨by decide,
   (C9_cache_key_decoding Unit id 60 "gzip" [255] [254] [] 0 10
      (fun _ _ => Except.ok [9]) (fun _ _ => Except.error ()) [9]
      (by decide) (by decide) rfl (by decide)).1,
   (C9_cache_key_decoding Unit id 60 "gzip" [255] [254] [] 0 10
      (fun _ _ => Except.ok [9]) (fun _ _ => Except.error ()) [9]
      (by decide) (by decide) rfl (by decide)).2⟩

/-- C10: the cache is shared process-wide: after one middleware instance
(with TTL `ttlA` and compressor `compressorsA`) compresses and stores a
body, a second instance constructed with different options (any TTL
`ttlB`, any compressor `compressorsB`) asking for the same algorithm and
identical body bytes within the first instance's TTL receives the stored
bytes from the shared store, for EVERY `compressorsB` — its own
compressor is observably not invoked — and the shared cache is left
unchanged by the second call. -/
theorem C10_shared_cache (E : Type) (md5hex : String → String)
    (ttlA ttlB : Nat) (algorithm : String) (buffer : Bytes) (cache : CacheState)
    (now now2 : Nat) (compressorsA compressorsB : String → Bytes → Except E Bytes)
    (outA : Bytes)
    (hmiss : cacheLookup cache (cacheKeyOf md5hex algorithm buffer) now = none)
    (hokA : compressorsA algorithm buffer = Except.ok outA)
    (hfresh : now2 < now + ttlA) :
    getOrCompress md5hex compressorsB ttlB algorithm buffer
        (getOrCompress md5hex compressorsA ttlA algorithm buffer cache now).2 now2 =
      (Except.ok outA,
        (getOrCompress md5hex compressorsA ttlA algorithm buffer cache now).2) := by
  have h1 : (getOrCompress md5hex compressorsA ttlA algorithm buffer cache now).2 =
      cacheSet cache (cacheKeyOf md5hex algorithm buffer) outA now ttlA := by
    simp [getOrCompress, hmiss, hokA]
  rw [h1]
  have hl := cacheLookup_cacheSet_self cache (cacheKeyOf md5hex algorithm buffer) outA
    now ttlA now2 hfresh
  simp [getOrCompress, hl]

/-- Witness for C10: instance A (TTL 60) stores the compressed bytes;
instance B (TTL 5, failing compressor) retrieves them unchanged. -/
theorem C10_shared_cache_witness :
    getOrCompress (E := Unit) id (fun _ _ => Except.error ()) 5 "br" [104, 105]
        (getOrCompress (E := Unit) id (fun _ _ => Except.ok [7]) 60 "br" [104, 105] [] 0).2
        42 =
      (Except.ok [7],
        (getOrCompress (E := Unit) id (fun _ _ => Except.ok [7]) 60 "br" [104, 105] [] 0).2) :=
  C10_shared_cache Unit id 60 5 "br" [104, 105] [] 0 42
    (fun _ _ => Except.ok [7]) (fun _ _ => Except.error ()) [7]
    (by decide) rfl (by decide)

end VafastCompress
